import Mathlib

/-!
A shallow embedding of the Matrix-style profile stream application
(`main.js` and `data/nyc.js`).

Modelling conventions:
* JavaScript numbers are modelled by exact rationals (`ℚ`) and integers
  (`ℤ`); `Math.floor` is `Int.floor`, `Math.round` is `⌊x + 1/2⌋`.
* Every call to `Math.random()` is made explicit: functions that consume
  randomness take the sampled values (rationals, intended range `[0,1)`)
  as arguments, either directly or as a stream `ℕ → ℚ` indexed in the
  order the source consumes draws.
* Strings are Lean `String`s; `String.indexOf`-style search is modelled
  over the character list.
* The JavaScript `%` operator on integers is truncated remainder, i.e.
  `Int.tmod`.
-/

/- The Batteries rational-number operations are `@[irreducible]`, which
blocks `decide`-style evaluation of the embedded functions on concrete
inputs; restore default reducibility for this file. -/
attribute [local semireducible] Rat.add Rat.mul Rat.sub Rat.inv Rat.ofScientific

namespace MatrixApp

-- ===================== Utilities (main.js lines 27-50) =====================

/-- JS `rand(min, max) = Math.random() * (max - min) + min`; the
`Math.random()` draw `u` is passed explicitly. -/
def rand (mn mx u : ℚ) : ℚ := u * (mx - mn) + mn

/-- JS `randi(min, max) = Math.floor(rand(min, max))`. -/
def randi (mn mx u : ℚ) : ℤ := ⌊rand mn mx u⌋

/-- JS `choice(arr) = arr[randi(0, arr.length)]`.  For `u ∈ [0,1)` the
index is always in range; the `getD` default is unreachable then. -/
def jsChoice [Inhabited α] (arr : List α) (u : ℚ) : α :=
  arr.getD (randi 0 arr.length u).toNat default

/-- JS `clamp(v, a, b) { return v < a ? a : v > b ? b : v; }`. -/
def clamp [LinearOrder α] (v a b : α) : α := if v < a then a else if v > b then b else v

/-- JS `Math.round` (floor of x + 1/2, matching JS on all inputs we model). -/
def jsRound (q : ℚ) : ℤ := ⌊q + 1/2⌋

/-- The loop body of `weightedChoice`: subtract each weight from the roll
and return the first value whose subtraction makes the roll non-positive. -/
def wcLoop : ℚ → List (α × ℚ) → Option α
  | _, [] => none
  | roll, (v, w) :: rest => if roll - w ≤ 0 then some v else wcLoop (roll - w) rest

/-- JS `weightedChoice(pairs)` (main.js lines 32-40): roll
`Math.random() * total`, walk the pairs subtracting weights, and fall back
to the last pair's value.  The draw `u` is explicit.  An empty list (where
the JS indexing `pairs[-1][0]` would throw) is modelled as `none`. -/
def weightedChoice (pairs : List (α × ℚ)) (u : ℚ) : Option α :=
  let total := (pairs.map (fun x => x.2)).sum
  match wcLoop (u * total) pairs with
  | some v => some v
  | none => (pairs.getLast?).map (fun x => x.1)

/-- Decimal digit characters, used to model JS number-to-string. -/
def digitChar (k : ℕ) : Char :=
  if k = 0 then '0' else if k = 1 then '1' else if k = 2 then '2' else if k = 3 then '3'
  else if k = 4 then '4' else if k = 5 then '5' else if k = 6 then '6' else if k = 7 then '7'
  else if k = 8 then '8' else '9'

/-- Digit-by-digit decimal rendering with enough fuel (structural
recursion so that the kernel can evaluate it). -/
def natDecimalAux : ℕ → ℕ → List Char
  | 0, _ => []
  | fuel + 1, n =>
      if n < 10 then [digitChar n]
      else natDecimalAux fuel (n / 10) ++ [digitChar (n % 10)]

/-- Decimal representation of a natural number (JS `Number.prototype.toString`
restricted to naturals). -/
def natDecimal (n : ℕ) : List Char := natDecimalAux (n + 1) n

/-- Decimal representation of an integer. -/
def intDecimal (i : ℤ) : List Char :=
  (if i < 0 then ['-'] else []) ++ natDecimal i.natAbs

/-- Group a REVERSED digit list in threes, inserting `,` after each
complete group that is followed by more digits (the regex replace in
`formatMoneyUSD`). -/
def groupRev : List Char → List Char
  | a :: b :: c :: rest =>
      if rest.isEmpty then [a, b, c] else a :: b :: c :: ',' :: groupRev rest
  | l => l

/-- JS `formatMoneyUSD(n)` (main.js lines 44-48): sign, `$`, and the
rounded absolute value with thousands separators. -/
def formatMoneyUSD (n : ℚ) : String :=
  let sign := if n < 0 then "-" else ""
  let x := (jsRound n).natAbs
  sign ++ "$" ++ String.mk ((groupRev (natDecimal x).reverse).reverse)

-- ===================== Profile record (data model) =====================

/-- A JSON-array element of the optional `coords` field: the embedded
sample profiles hold numbers, the synthesized ones hold `toFixed` strings. -/
inductive CoordV where
  | num (q : ℚ)
  | str (s : String)
deriving DecidableEq, Repr

/-- The canonical profile record.  Fields that the encoders guard with
`||` / `??` (i.e. that some producers omit) are `Option`s.  `last_active`
is modelled as the epoch-millisecond instant rather than its ISO rendering
(no claim observes the rendering). -/
structure Profile where
  id : Option String := none
  name : String := ""
  age : Option ℤ := none
  gender : Option String := none
  job_title : Option String := none
  industry : String := ""
  income_usd : Option ℤ := none
  education : String := ""
  location_city : String := ""
  borough : Option String := none
  nta : Option String := none
  relationship_status : String := ""
  emotional_state : Option String := none
  activity : String := ""
  interests : List String := []
  risk_score : Option ℤ := none
  last_active : ℤ := 0
  coords : Option (List CoordV) := none
deriving DecidableEq, Inhabited, Repr

/-- JS `o || d` for string-valued fields: `undefined` and `""` are falsy. -/
def orStr (o : Option String) (d : String) : String :=
  match o with
  | none => d
  | some s => if s = "" then d else s

/-- JS `o || 0` for integer-valued fields: `undefined` and `0` both give `0`. -/
def jsOrZero (o : Option ℤ) : ℤ :=
  match o with
  | none => 0
  | some v => v

/-- JS `${o || '?'}` for the age field: `undefined` and `0` render `?`. -/
def ageDisplay (o : Option ℤ) : String :=
  match o with
  | none => "?"
  | some a => if a = 0 then "?" else String.mk (intDecimal a)

/-- JS `${o ?? ''}` for the risk field (nullish coalescing: `0` renders). -/
def nullishInt (o : Option ℤ) : String :=
  match o with
  | none => ""
  | some r => String.mk (intDecimal r)

-- ===================== JSON stringification model =====================

/-- Hexadecimal digit characters (for `\u00XX` escapes). -/
def hexDigitChar (k : ℕ) : Char :=
  if k < 10 then digitChar k
  else if k = 10 then 'a' else if k = 11 then 'b' else if k = 12 then 'c'
  else if k = 13 then 'd' else if k = 14 then 'e' else 'f'

/-- Character-level JSON string escaping as performed by `JSON.stringify`. -/
def escapeChar (c : Char) : List Char :=
  if c = '"' then ['\\', '"']
  else if c = '\\' then ['\\', '\\']
  else if c = '\n' then ['\\', 'n']
  else if c = '\r' then ['\\', 'r']
  else if c = '\t' then ['\\', 't']
  else if c = '\x08' then ['\\', 'b']
  else if c = '\x0c' then ['\\', 'f']
  else if c.toNat < 32 then ['\\', 'u', '0', '0', hexDigitChar (c.toNat / 16), hexDigitChar (c.toNat % 16)]
  else [c]

/-- Escape every character of a list. -/
def escList : List Char → List Char
  | [] => []
  | c :: cs => escapeChar c ++ escList cs

/-- `JSON.stringify` of a string value. -/
def jsonQuote (s : String) : String :=
  String.mk ('"' :: (escList s.data ++ ['"']))

/-- Render an integer `scaled` as a decimal with the point `d` digits from
the right (helper for `toFixed` and number rendering). -/
def withPoint (scaled : ℤ) (d : ℕ) : String :=
  if d = 0 then String.mk (intDecimal scaled)
  else
    let a := scaled.natAbs
    let ip := a / 10 ^ d
    let fp := a % 10 ^ d
    let fpDigits := natDecimal fp
    (if scaled < 0 then "-" else "") ++ String.mk (natDecimal ip) ++ "."
      ++ String.mk (List.replicate (d - fpDigits.length) '0' ++ fpDigits)

/-- JS `Number.prototype.toFixed(d)`, on rationals (exact for the decimal
values the source produces). -/
def toFixedQ (q : ℚ) (d : ℕ) : String := withPoint (jsRound (q * 10 ^ d)) d

/-- Smallest exponent making `q` an exact decimal, if one exists below 21. -/
def decExp (q : ℚ) : Option ℕ :=
  (List.range 21).find? (fun k => (q * 10 ^ k).den = 1)

/-- JS number-to-string for the (exact-decimal) numbers appearing in the
embedded sample data. -/
def renderQ (q : ℚ) : String :=
  if q.den = 1 then String.mk (intDecimal q.num)
  else
    match decExp q with
    | some k => withPoint (q * 10 ^ k).num k
    | none => String.mk (intDecimal q.num)

/-- `JSON.stringify` of one `coords` array element. -/
def renderCoord : CoordV → String
  | .num q => renderQ q
  | .str s => jsonQuote s

-- ===================== String Painter (main.js lines 484-539) =====================

/-- The `profileLabel` template shared by the `kv` and `json` styles:
job title, upper-cased gender initial, age (the trailing newline of the
`json` variant is removed by the `replace`, giving the same string). -/
def kvLabel (p : Profile) : String :=
  orStr p.job_title "Agent" ++ "+"
    ++ String.mk [Char.toUpper ((orStr p.gender "U").data.headD 'U')] ++ "+"
    ++ ageDisplay p.age

/-- The `kv` style of `StringPainter.buildString`. -/
def buildKv (p : Profile) : String :=
  "profile=" ++ kvLabel p ++ " | nta=" ++ orStr p.nta "" ++ " | mood="
    ++ orStr p.emotional_state "" ++ " | income=" ++ formatMoneyUSD (jsOrZero p.income_usd)
    ++ " | risk=" ++ nullishInt p.risk_score

/-- Is `c` one of `[a-fA-F0-9]` (kept by the id-hex regex filter)? -/
def isHexDigitChar (c : Char) : Bool :=
  ('0' ≤ c && c ≤ '9') || ('a' ≤ c && c ≤ 'f') || ('A' ≤ c && c ≤ 'F')

/-- `(p.id || '0000').replace(/[^a-fA-F0-9]/g, '').slice(-4) || 'A1C3'`. -/
def codeIdHex (p : Profile) : String :=
  let base := orStr p.id "0000"
  let filtered := base.data.filter isHexDigitChar
  let t := filtered.drop (filtered.length - 4)
  if t.isEmpty then "A1C3" else String.mk t

/-- The `code` style of `StringPainter.buildString`. -/
def buildCode (p : Profile) : String :=
  "let p=Agent( id:0x" ++ codeIdHex p ++ ", age:" ++ ageDisplay p.age
    ++ ", job:\"" ++ orStr p.job_title "Worker" ++ "\", mood:\"" ++ orStr p.emotional_state ""
    ++ "\", nta:\"" ++ orStr p.nta "" ++ "\", income:"
    ++ String.mk (intDecimal (jsOrZero p.income_usd)) ++ " );"

/-- The `coords` value of the default (`json`) style: the profile's own
array if present (arrays are always truthy), otherwise three freshly drawn
`toFixed` strings — this is where `buildString` consumes randomness. -/
def jsonCoordsElems (p : Profile) (r : ℕ → ℚ) : List String :=
  match p.coords with
  | some cs => cs.map renderCoord
  | none =>
      [jsonQuote (toFixedQ (rand 100 600 (r 0)) 2),
       jsonQuote (toFixedQ (rand 100 400 (r 1)) 2),
       jsonQuote (toFixedQ (rand 200 800 (r 2)) 1)]

/-- The deterministic part of the `json` encoding, up to and including the
opening bracket of the `coords` array. -/
def jsonPre (p : Profile) : String :=
  "\x7b\"profile\":" ++ jsonQuote (kvLabel p) ++ ",\"nta\":" ++ jsonQuote (orStr p.nta "")
    ++ ",\"income\":" ++ String.mk (intDecimal (jsOrZero p.income_usd))
    ++ ",\"mood\":" ++ jsonQuote (orStr p.emotional_state "") ++ ",\"coords\":["

/-- Comma-join of the serialized array elements (as `JSON.stringify`
renders an array body). -/
def joinComma : List String → String
  | [] => ""
  | [x] => x
  | x :: xs => x ++ "," ++ joinComma xs

/-- The default (`json`) style of `StringPainter.buildString`:
`JSON.stringify` of the object literal with keys
`profile, nta, income, mood, coords` in insertion order. -/
def buildJson (p : Profile) (r : ℕ → ℚ) : String :=
  jsonPre p ++ (joinComma (jsonCoordsElems p r) ++ "]\x7d")

/-- `StringPainter.buildString(p, mode)` (main.js lines 494-515). -/
def buildString (p : Profile) (mode : String) (r : ℕ → ℚ) : String :=
  if mode = "kv" then buildKv p
  else if mode = "code" then buildCode p
  else buildJson p r

/-- Model of `String.prototype.indexOf`: the first position where `pat`
occurs as a contiguous sublist, if any. -/
def strIndexOf (s pat : List Char) : Option ℕ :=
  (List.range (s.length + 1)).find? (fun i => decide ((s.drop i).take pat.length = pat))

/-- The fixed label substrings scanned by `computeKeyPositions`. -/
def keyLabels : List String := ["profile", "nta", "income", "mood", "risk"]

/-- The offsets contributed by one key: every position covered by its
first occurrence, if it occurs. -/
def keyRange (s : List Char) (k : String) : List ℤ :=
  match strIndexOf s k.data with
  | none => []
  | some i => (List.range k.length).map (fun (j : ℕ) => ((i : ℤ) + (j : ℤ)))

/-- `StringPainter.computeKeyPositions(str)` (main.js lines 526-534).
The JS `Set` is modelled as a list; only membership is ever observed. -/
def computeKeyPositions (str : String) : List ℤ :=
  (keyLabels.map (keyRange str.data)).flatten

/-- The state built by the `StringPainter` constructor (main.js 484-490). -/
structure StringPainter where
  profile : Profile
  mode : String
  string : String
  keyCharPositions : List ℤ
deriving Repr

/-- `new StringPainter(profile, mode)`: build the display string and
precompute its key positions. -/
def mkStringPainter (p : Profile) (mode : String) (r : ℕ → ℚ) : StringPainter :=
  let s := buildString p mode r
  { profile := p, mode := mode, string := s, keyCharPositions := computeKeyPositions s }

/-- `StringPainter.isKeyChar(bufferIndex)` (main.js lines 536-538): wrap
the buffer index into the core string modulo its length and test key
membership.  The JS `%` is truncated remainder. -/
def StringPainter.isKeyChar (sp : StringPainter) (bufferIndex : ℤ) : Bool :=
  sp.keyCharPositions.contains
    (Int.tmod (bufferIndex - 40 + (sp.string.length : ℤ) * 10000) (sp.string.length : ℤ))

/-- The filler alphabet of `buildGlyphStream`. -/
def fillerAlphabet : List Char :=
  "ｱｲｳｴｵ0123456789<>[]\x7b\x7d-=+*/$%".data

/-- `StringPainter.buildGlyphStream()` (main.js lines 517-524): 40 random
filler characters, the core string, 40 more filler characters.  The draws
for the left pad use stream indices `0..39`, the right pad `40..79`. -/
def StringPainter.buildGlyphStream (sp : StringPainter) (r : ℕ → ℚ) : List Char :=
  let pad := 40
  let left := (List.range pad).map
    (fun i => fillerAlphabet.getD (randi 0 fillerAlphabet.length (r i)).toNat 'ｱ')
  let right := (List.range pad).map
    (fun i => fillerAlphabet.getD (randi 0 fillerAlphabet.length (r (pad + i))).toNat 'ｱ')
  left ++ sp.string.data ++ right

-- ===================== Profile Factory (main.js lines 382-456) =====================

def firstNames : List String :=
  ["Ava","Mia","Liam","Noah","Emma","Oliver","Lucas","Amelia","Ethan","Sofia","Zoe","Kai",
   "Nina","Leo","Isla","Maya","Ezra","Ivy","Mila","Aria","Theo","Luna","Finn","Mason","Iris"]

def lastNames : List String :=
  ["Kim","Lee","Nguyen","Patel","Garcia","Chen","Smith","Khan","Mori","Silva","Rossi",
   "Santos","Brown","Martin","Lopez","Wilson","Dubois","Kowalski"]

def genders : List String := ["female","male","non-binary"]

def industries : List String :=
  ["Finance","Healthcare","Tech","Education","Retail","Energy","Gaming","Media","Gov","Aerospace"]

def jobs : List String :=
  ["Engineer","Designer","Data Scientist","Analyst","PM","Researcher","Nurse","Teacher",
   "Marketer","Artist","Security","Pilot"]

def relationshipOpts : List String := ["single","dating","married","complicated"]

def educationOpts : List String := ["HS","Associate","BSc","MSc","PhD"]

/-- The fixed mood weight table `emotional` (main.js lines 391-394). -/
def emotionalTable : List (String × ℚ) :=
  [("focused", 3), ("stressed", 2), ("curious", 3), ("flow", 2),
   ("burnout", 1), ("optimistic", 2), ("calm", 2), ("distracted", 1)]

def cities : List String :=
  ["New York","Berlin","Tokyo","Seoul","Toronto","Paris","Madrid","Sydney","Sao Paulo",
   "Nairobi","Dublin","Singapore"]

def activities : List String :=
  ["browsing","coding","commuting","meeting","streaming","learning","exercising","shopping"]

/-- Base-36 digit characters. -/
def base36Digit (k : ℕ) : Char :=
  if k < 10 then digitChar k else Char.ofNat (87 + k)

/-- The first `n` base-36 fractional digits of `u` (models
`u.toString(36).slice(2, 2+n)` for a generic draw). -/
def base36FracDigits : ℚ → ℕ → List Char
  | _, 0 => []
  | u, n + 1 =>
      let v := u * 36
      base36Digit ((⌊v⌋).toNat % 36) :: base36FracDigits (v - ⌊v⌋) n

/-- Base-36 digit rendering with fuel (structural recursion). -/
def natBase36Aux : ℕ → ℕ → List Char
  | 0, _ => []
  | fuel + 1, n =>
      if n < 36 then [base36Digit n]
      else natBase36Aux fuel (n / 36) ++ [base36Digit (n % 36)]

/-- Base-36 representation of a natural number. -/
def natBase36 (n : ℕ) : List Char := natBase36Aux (n + 1) n

/-- `makeId()` (main.js lines 397-399): six base-36 fractional digits of a
fresh draw, a dash, and the last four base-36 digits of `Date.now()`. -/
def makeId (u : ℚ) (nowMs : ℕ) : String :=
  let t := natBase36 nowMs
  String.mk (base36FracDigits u 6) ++ "-" ++ String.mk (t.drop (t.length - 4))

/-- The per-industry income ranges of `sampleIncome` (main.js 401-408),
with the `|| [40000, 120000]` default. -/
def incomeRange (industry : String) : ℚ × ℚ :=
  if industry = "Tech" then (80000, 220000)
  else if industry = "Finance" then (70000, 250000)
  else if industry = "Healthcare" then (50000, 180000)
  else if industry = "Education" then (35000, 120000)
  else if industry = "Retail" then (30000, 90000)
  else if industry = "Energy" then (60000, 200000)
  else if industry = "Gaming" then (45000, 150000)
  else if industry = "Media" then (40000, 140000)
  else if industry = "Gov" then (40000, 120000)
  else if industry = "Aerospace" then (70000, 210000)
  else (40000, 120000)

/-- `sampleIncome(industry)`: a draw in the industry range rounded to the
nearest 1000. -/
def sampleIncome (industry : String) (u : ℚ) : ℤ :=
  let b := incomeRange industry
  jsRound (rand b.1 b.2 u / 1000) * 1000

/-- The fixed per-mood bias table of `riskFromIncomeAndMood` /
`biasRisk`; `moodBias[mood] || 0` defaults every unknown mood (and the
explicit `curious: 0` entry) to `0`. -/
def moodBias (mood : String) : ℤ :=
  if mood = "burnout" then 15
  else if mood = "stressed" then 10
  else if mood = "distracted" then 8
  else if mood = "focused" then -5
  else if mood = "calm" then -5
  else if mood = "flow" then -8
  else if mood = "optimistic" then -3
  else 0

/-- `riskFromIncomeAndMood(income, mood)` (main.js lines 410-419): a draw
in `[10,90)`, shifted for income extremes and mood, rounded and clamped
to `[0,100]` via `clamp`. -/
def riskFromIncomeAndMood (u : ℚ) (income : ℤ) (mood : String) : ℤ :=
  let r0 := rand 10 90 u
  let r1 := if income > 150000 then r0 - 10 else r0
  let r2 := if income < 40000 then r1 + 10 else r1
  let r3 := r2 + (moodBias mood : ℚ)
  clamp (jsRound r3) 0 100

/-- `biasRisk(income, mood)` (data/nyc.js lines 174-181): the same formula
with `Math.max(0, Math.min(100, Math.round(r)))`. -/
def biasRisk (u : ℚ) (income : ℤ) (mood : String) : ℤ :=
  let r0 := rand 10 90 u
  let r1 := if income > 150000 then r0 - 10 else r0
  let r2 := if income < 40000 then r1 + 10 else r1
  let r3 := r2 + (moodBias mood : ℚ)
  max 0 (min 100 (jsRound r3))

def interestsPool : List String :=
  ["climbing","reading","ai","music","crypto","gardening","photography","biking","chess",
   "vr","cooking","yoga","travel","gaming"]

/-- `interestsSet()` (main.js lines 421-426).  The source shuffles the
pool with `sort(() => Math.random() - 0.5)`, whose outcome is
implementation-defined; the resulting permutation is passed in as `perm`. -/
def interestsSet (u : ℚ) (perm : List String → List String) : List String :=
  let n := randi 2 6 u
  (perm interestsPool).take n.toNat

/-- `ProfileFactory.generate()` (main.js lines 428-453).  The stream `r`
supplies the `Math.random()` draws in source order (the abstracted shuffle
uses its own `perm`); `nowMs` is `Date.now()`. -/
def generate (r : ℕ → ℚ) (perm : List String → List String) (nowMs : ℕ) : Profile :=
  let ind := jsChoice industries (r 0)
  let job := jsChoice jobs (r 1)
  let mood := match weightedChoice emotionalTable (r 2) with
    | some m => m
    | none => ""
  let age := randi 18 70 (r 3)
  let inc := sampleIncome ind (r 4)
  let risk := riskFromIncomeAndMood (r 5) inc mood
  { id := some (makeId (r 6) nowMs),
    name := jsChoice firstNames (r 7) ++ " " ++ jsChoice lastNames (r 8),
    age := some age,
    gender := some (jsChoice genders (r 9)),
    job_title := some job,
    industry := ind,
    income_usd := some inc,
    education := jsChoice educationOpts (r 10),
    location_city := jsChoice cities (r 11),
    relationship_status := jsChoice relationshipOpts (r 12),
    emotional_state := some mood,
    activity := jsChoice activities (r 13),
    interests := interestsSet (r 14) perm,
    risk_score := some risk,
    last_active := (nowMs : ℤ) - randi 0 (3600 * 1000) (r 15),
    coords := none }

-- ===================== Data Source (main.js lines 461-481) =====================

/-- `generateFakeBatch(n)`: `n` freshly generated profiles; `mk i` is the
profile produced by the `i`-th `ProfileFactory.generate()` call. -/
def generateFakeBatch (mk : ℕ → Profile) (n : ℕ) : List Profile :=
  (List.range n).map mk

/-- `takeLoop(arr, n)` (main.js lines 475-479): push `arr[i % arr.length]`
for `i = 0 .. n-1`. -/
def takeLoop (arr : List Profile) (n : ℕ) : List Profile :=
  (List.range n).map (fun i => arr.getD (i % arr.length) default)

/-- The synchronous behaviour of `DataSource.getProfiles(wantCount)`
(main.js lines 463-473).  `source` is `CONFIG.source`, `nycAvail` is
`typeof NYCProfileService !== 'undefined'`, `pool` the current
`cachedProfiles`.  In the nyc branch the asynchronous refresh mutates the
pool only after this call returns, so it does not appear here.  Returns
the result list and the pool the call left behind (and read from). -/
def getProfiles (source : String) (nycAvail : Bool) (pool : List Profile)
    (mk : ℕ → Profile) (wantCount : ℕ) : List Profile × List Profile :=
  if source = "nyc" ∧ nycAvail then
    let pool1 := if pool.length = 0 then generateFakeBatch mk wantCount else pool
    (takeLoop pool1 wantCount, pool1)
  else
    let pool1 := if pool.length < wantCount then generateFakeBatch mk (max wantCount 128) else pool
    (takeLoop pool1 wantCount, pool1)

-- ===================== NYC Profile Service (data/nyc.js) =====================

/-- `ONE_HOUR_MS = 60 * 60 * 1000`. -/
def ONE_HOUR_MS : ℤ := 60 * 60 * 1000

/-- The `localStorage` cache: association list from key to
`(creation-timestamp, value)`; `setItem` overwrites, modelled by
prepending (lookup finds the newest entry first). -/
abbrev Cache := List (String × (ℤ × List Profile))

/-- `getCache(key)` (data/nyc.js lines 42-50): a missing, unreadable or
expired entry is a miss (`none`); `now` is `Date.now()`. -/
def getCache (c : Cache) (key : String) (now : ℤ) : Option (List Profile) :=
  match c.lookup key with
  | none => none
  | some tv => if now - tv.1 > ONE_HOUR_MS then none else some tv.2

/-- `setCache(key, v)` (data/nyc.js lines 51-53). -/
def setCache (c : Cache) (key : String) (v : List Profile) (now : ℤ) : Cache :=
  (key, (now, v)) :: c

/-- The cache key template of `fetchProfiles`. -/
def cacheKey (borough nta : String) (limit : ℤ) : String :=
  "nyc_profiles:" ++ borough ++ ":" ++ nta ++ ":" ++ String.mk (intDecimal limit)

/-- The embedded fallback `SAMPLE_PROFILES` (data/nyc.js lines 72-85).
Their `last_active` is the load instant, modelled as epoch `0`. -/
def SAMPLE_PROFILES : List Profile :=
  [{ id := some "smpl-1", name := "Sample A", age := some 24, gender := some "female",
     job_title := some "Student", industry := "Education", income_usd := some 42000,
     education := "BSc", location_city := "New York", borough := some "Manhattan",
     nta := some "MN013", relationship_status := "single", emotional_state := some "curious",
     activity := "learning", interests := ["music","ai"], risk_score := some 37,
     last_active := 0, coords := some [.num (358.46 : ℚ), .num (155.65 : ℚ), .num (411.0 : ℚ)] },
   { id := some "smpl-2", name := "Sample B", age := some 35, gender := some "male",
     job_title := some "Analyst", industry := "Finance", income_usd := some 95000,
     education := "MSc", location_city := "New York", borough := some "Brooklyn",
     nta := some "BK032", relationship_status := "married", emotional_state := some "focused",
     activity := "commuting", interests := ["chess","biking"], risk_score := some 29,
     last_active := 0, coords := some [.num (402.12 : ℚ), .num (210.22 : ℚ), .num (512.0 : ℚ)] }]

/-- `fetchProfiles(opts)` (data/nyc.js lines 183-207).  `ρ` is the raw-row
type and `synth` models `synthesizeProfileFromDemographics` (the per-row
randomness is internal to `synth`).  `net` is the outcome of the awaited
`sodaFetch`: a thrown error, a non-array (`.ok none`, which fails the
`Array.isArray` guard and yields `[]`), or the row array.  Returns the
profile list handed to the caller, the cache after the call (the `catch`
path writes nothing), and whether a network request was issued. -/
def fetchProfiles (ρ : Type) (synth : ρ → Profile) (borough nta : String) (limit : ℤ)
    (c : Cache) (now : ℤ) (net : Except String (Option (List ρ))) :
    List Profile × Cache × Bool :=
  let key := cacheKey borough nta limit
  match getCache c key now with
  | some cached => (cached, c, false)
  | none =>
    match net with
    | .error _ => (SAMPLE_PROFILES, c, true)
    | .ok rows =>
        let profiles0 := match rows with
          | some l => l.map synth
          | none => []
        let profiles := if profiles0.isEmpty then SAMPLE_PROFILES else profiles0
        (profiles, setCache c key profiles now, true)

-- ===================== Column count (main.js lines 146-166, 190-193) =====================

/-- The glyph-column count computed by `resetColumns` / `update` in glyph
mode: `clamp(Math.max(8, Math.floor((w / 16) * 0.7 * d)), 8, 160)` with
`CONFIG.maxColumns = 160` and glyph size 16 (the two source sites factor
`0.7 * d` identically up to rational associativity). -/
def numColumns (w : ℕ) (d : ℚ) : ℤ :=
  clamp (max 8 ⌊((w : ℚ) / 16) * ((7 : ℚ) / 10 * d)⌋) 8 160

-- ===================== Concrete profiles for witnesses =====================

/-- A concrete profile with `coords` absent, used as a test input. -/
def sampleNoCoords : Profile :=
  { id := some "abc123-zz9f", name := "Test T", age := some 30, gender := some "female",
    job_title := some "Engineer", industry := "Tech", income_usd := some 95000,
    education := "BSc", location_city := "New York", relationship_status := "single",
    emotional_state := some "focused", activity := "coding", interests := ["ai"],
    risk_score := some 29, last_active := 0, coords := none }

/-- A concrete profile with `coords` present. -/
def sampleWithCoords : Profile :=
  { sampleNoCoords with coords := some [.str "358.46", .str "155.65", .str "411.0"] }

/-- Is `c` a lower-case ASCII letter?  All key labels consist of such
characters, while the randomly generated `coords` part of the `json`
encoding contains none — the separation on which key-position stability
rests. -/
def isLowerAlpha (c : Char) : Bool := decide ('a' ≤ c ∧ c ≤ 'z')

-- =====================================================================
-- Theorems
-- =====================================================================

-- ---------- helper lemmas on the painter and index search ----------

theorem mkStringPainter_string (p : Profile) (mode : String) (r : ℕ → ℚ) :
    (mkStringPainter p mode r).string = buildString p mode r := rfl

theorem mkStringPainter_keys (p : Profile) (mode : String) (r : ℕ → ℚ) :
    (mkStringPainter p mode r).keyCharPositions = computeKeyPositions (buildString p mode r) := rfl

theorem strIndexOf_bound (s pat : List Char) (i : ℕ) (h : strIndexOf s pat = some i) :
    i + pat.length ≤ s.length := by
  unfold strIndexOf at h
  have hmem := List.mem_of_find?_eq_some h
  have hpred := List.find?_some h
  have hi : i < s.length + 1 := List.mem_range.mp hmem
  have hpred2 : (s.drop i).take pat.length = pat := of_decide_eq_true hpred
  have hlen : ((s.drop i).take pat.length).length = pat.length := by rw [hpred2]
  simp only [List.length_take, List.length_drop] at hlen
  omega

theorem computeKeyPositions_subset (str : String) (x : ℤ) (hx : x ∈ computeKeyPositions str) :
    0 ≤ x ∧ x < (str.length : ℤ) := by
  unfold computeKeyPositions at hx
  rw [List.mem_flatten] at hx
  obtain ⟨l, hl, hxl⟩ := hx
  rw [List.mem_map] at hl
  obtain ⟨k, _, rfl⟩ := hl
  unfold keyRange at hxl
  cases h : strIndexOf str.data k.data with
  | none => rw [h] at hxl; simp at hxl
  | some i =>
    rw [h] at hxl
    rcases List.mem_map.mp hxl with ⟨j, hjr, hje⟩
    have hj : j < k.length := List.mem_range.mp hjr
    have hb : i + k.length ≤ str.length := strIndexOf_bound _ _ _ h
    rw [← hje]
    constructor
    · exact_mod_cast Nat.zero_le (i + j)
    · exact_mod_cast Nat.lt_of_lt_of_le (Nat.add_lt_add_left hj i) hb

-- ---------- C8 ----------

/-- C8: for every profile `p` and style `s`, the key-position set computed
for the encoded string is a subset of `[0, len(encoded string))`: every
recorded offset is a valid character index of the string. -/
theorem C8_key_positions_in_range (p : Profile) (mode : String) (r : ℕ → ℚ) (x : ℤ)
    (hx : x ∈ (mkStringPainter p mode r).keyCharPositions) :
    0 ≤ x ∧ x < (((mkStringPainter p mode r).string.length : ℤ)) :=
  computeKeyPositions_subset (buildString p mode r) x hx

/-- Witness for C8 at a concrete profile, style `kv`, offset 1 (inside the
`profile` label match). -/
theorem C8_witness :
    (1 : ℤ) ∈ (mkStringPainter sampleNoCoords "kv" (fun _ => 0)).keyCharPositions ∧
    (0 ≤ (1 : ℤ) ∧
      (1 : ℤ) < (((mkStringPainter sampleNoCoords "kv" (fun _ => 0)).string.length : ℤ))) :=
  ⟨by decide, C8_key_positions_in_range sampleNoCoords "kv" (fun _ => 0) 1 (by decide)⟩

-- ---------- C7 ----------

/-- C7: for every sampled draw, every income (including 0 and arbitrarily
large values) and every mood, the synthetic risk score is an integer in
`[0, 100]` — for the generator formula `riskFromIncomeAndMood`, for the
NYC-side `biasRisk`, and for the `risk_score` field of every profile
produced by `ProfileFactory.generate` (integrality is by construction:
both functions return `ℤ` via `Math.round`). -/
theorem C7_risk_clamped :
    ∀ (u : ℚ) (income : ℤ) (mood : String),
      (0 ≤ riskFromIncomeAndMood u income mood ∧ riskFromIncomeAndMood u income mood ≤ 100) ∧
      (0 ≤ biasRisk u income mood ∧ biasRisk u income mood ≤ 100) ∧
      (∀ (r : ℕ → ℚ) (perm : List String → List String) (nowMs : ℕ),
        ∃ rv, (generate r perm nowMs).risk_score = some rv ∧ 0 ≤ rv ∧ rv ≤ 100) := by
  intro u income mood
  have hclamp : ∀ v : ℤ, 0 ≤ clamp v 0 100 ∧ clamp v 0 100 ≤ 100 := by
    intro v
    unfold clamp
    split_ifs <;> omega
  have hmm : ∀ v : ℤ, 0 ≤ max 0 (min 100 v) ∧ max 0 (min 100 v) ≤ 100 := by
    intro v
    constructor
    · exact le_max_left _ _
    · exact max_le (by norm_num) (min_le_left _ _)
  have hmain : ∀ (u2 : ℚ) (inc2 : ℤ) (m2 : String),
      0 ≤ riskFromIncomeAndMood u2 inc2 m2 ∧ riskFromIncomeAndMood u2 inc2 m2 ≤ 100 :=
    fun u2 inc2 m2 => hclamp _
  refine ⟨hmain u income mood, hmm _, ?_⟩
  intro r perm nowMs
  exact ⟨_, rfl, hmain (r 5) _ _⟩

-- ---------- C3 ----------

theorem clamp_window_mono (a b : ℤ) (h : a ≤ b) :
    clamp (max 8 a) 8 160 ≤ clamp (max 8 b) 8 160 := by
  unfold clamp
  split_ifs <;> omega

/-- C3: for every density scale `d ∈ [0.2, 2.0]` and surface widths, the
glyph-column count lies in `[8, maxColumns] = [8, 160]` and is monotone
non-decreasing in the width and in the density scale. -/
theorem C3_column_count (w w2 : ℕ) (d d2 : ℚ)
    (hd1 : 1/5 ≤ d) (hd2 : d ≤ 2) (hd1b : 1/5 ≤ d2) (hd2b : d2 ≤ 2)
    (hww : w ≤ w2) (hdd : d ≤ d2) :
    (8 ≤ numColumns w d ∧ numColumns w d ≤ 160) ∧
    numColumns w d ≤ numColumns w2 d ∧ numColumns w d ≤ numColumns w d2 := by
  have hd0 : (0 : ℚ) ≤ d := by linarith
  refine ⟨?_, ?_, ?_⟩
  · unfold numColumns clamp
    split_ifs <;> omega
  · apply clamp_window_mono
    apply Int.floor_le_floor
    have hw : ((w : ℚ) / 16) ≤ ((w2 : ℚ) / 16) := by
      apply div_le_div_of_nonneg_right ?_ (by norm_num)
      exact_mod_cast hww
    apply mul_le_mul_of_nonneg_right hw
    positivity
  · apply clamp_window_mono
    apply Int.floor_le_floor
    apply mul_le_mul_of_nonneg_left ?_ (by positivity)
    linarith

/-- Witness for C3 at widths 1280 ≤ 1920 and densities 1 ≤ 3/2. -/
theorem C3_witness :
    (8 ≤ numColumns 1280 1 ∧ numColumns 1280 1 ≤ 160) ∧
    numColumns 1280 1 ≤ numColumns 1920 1 ∧ numColumns 1280 1 ≤ numColumns 1280 (3/2) :=
  C3_column_count 1280 1920 1 (3/2) (by norm_num) (by norm_num) (by norm_num) (by norm_num)
    (by norm_num) (by norm_num)

-- ---------- C10 ----------

theorem wcLoop_mem {α : Type} (roll : ℚ) (pairs : List (α × ℚ)) (v : α)
    (h : wcLoop roll pairs = some v) : v ∈ pairs.map Prod.fst := by
  induction pairs generalizing roll with
  | nil => simp [wcLoop] at h
  | cons hd tl ih =>
    obtain ⟨a, w⟩ := hd
    unfold wcLoop at h
    split_ifs at h with hc
    · injection h with h2
      subst h2
      simp
    · simpa using Or.inr (ih _ h)

theorem weightedChoice_spec {α : Type} (pairs : List (α × ℚ)) (u : ℚ) (hne : pairs ≠ []) :
    ∃ v, weightedChoice pairs u = some v ∧ v ∈ pairs.map Prod.fst := by
  simp only [weightedChoice]
  cases h : wcLoop (u * (pairs.map (fun x => x.2)).sum) pairs with
  | some v => exact ⟨v, rfl, wcLoop_mem _ _ _ h⟩
  | none =>
    rw [List.getLast?_eq_getLast pairs hne]
    exact ⟨(pairs.getLast hne).1, rfl, List.mem_map_of_mem _ (List.getLast_mem hne)⟩

/-- C10: for every non-empty list of (value, weight) pairs, `weightedChoice`
is total — it returns `some v` with `v` occurring in the list — and
consequently the `emotional_state` of every profile produced by
`ProfileFactory.generate` is one of the eight moods of the fixed table. -/
theorem C10_weighted_choice_total :
    (∀ (α : Type) (pairs : List (α × ℚ)) (u : ℚ), pairs ≠ [] →
       ∃ v, weightedChoice pairs u = some v ∧ v ∈ pairs.map Prod.fst) ∧
    (∀ (r : ℕ → ℚ) (perm : List String → List String) (nowMs : ℕ),
       ∃ m, (generate r perm nowMs).emotional_state = some m ∧
         m ∈ ["focused", "stressed", "curious", "flow", "burnout", "optimistic", "calm", "distracted"]) := by
  refine ⟨fun α pairs u hne => weightedChoice_spec pairs u hne, ?_⟩
  intro r perm nowMs
  obtain ⟨v, hv, hmem⟩ := weightedChoice_spec emotionalTable (r 2) (by simp [emotionalTable])
  refine ⟨v, ?_, ?_⟩
  · show some (match weightedChoice emotionalTable (r 2) with
      | some m => m
      | none => "") = some v
    rw [hv]
  · simpa [emotionalTable] using hmem

/-- Witness for C10 on a concrete singleton weight table. -/
theorem C10_witness :
    ∃ v, weightedChoice [("solo", (1 : ℚ))] 0 = some v ∧
      v ∈ ([("solo", (1 : ℚ))].map Prod.fst) :=
  C10_weighted_choice_total.1 String [("solo", (1 : ℚ))] 0 (by simp)

-- ---------- C4 ----------

theorem takeLoop_spec (arr : List Profile) (n : ℕ) (hne : arr ≠ []) :
    (takeLoop arr n).length = n ∧
    ∀ i, i < n → (takeLoop arr n)[i]? = arr[(i % arr.length)]? := by
  have hpos : 0 < arr.length := List.length_pos.mpr hne
  constructor
  · simp [takeLoop]
  · intro i hi
    have hmod : i % arr.length < arr.length := Nat.mod_lt _ hpos
    rw [List.getElem?_eq_getElem hmod]
    simp [takeLoop, List.getElem?_range hi, List.getElem?_eq_getElem hmod]

theorem generateFakeBatch_ne_nil (mk : ℕ → Profile) (m : ℕ) (hm : 0 < m) :
    generateFakeBatch mk m ≠ [] := by
  have : (generateFakeBatch mk m).length = m := by simp [generateFakeBatch]
  intro hcon
  rw [hcon] at this
  simp at this
  omega

/-- C4: for every count `n ≥ 1`, `getProfiles(n)` returns an ordered list
of exactly `n` profiles, and element `i` of the result equals element
`i mod poolSize` of the (non-empty) underlying pool the call used —
cyclic repetition whenever the pool is smaller than `n`. -/
theorem C4_profiles_cycle (source : String) (nycAvail : Bool) (pool : List Profile)
    (mk : ℕ → Profile) (n : ℕ) (hn : 1 ≤ n) :
    (getProfiles source nycAvail pool mk n).1.length = n ∧
    (getProfiles source nycAvail pool mk n).2 ≠ [] ∧
    ∀ i, i < n →
      (getProfiles source nycAvail pool mk n).1[i]? =
        (getProfiles source nycAvail pool mk n).2[(i % (getProfiles source nycAvail pool mk n).2.length)]? := by
  have hkey : ∀ arr : List Profile, arr ≠ [] →
      (takeLoop arr n, arr).1.length = n ∧ (takeLoop arr n, arr).2 ≠ [] ∧
      ∀ i, i < n → (takeLoop arr n, arr).1[i]? =
        (takeLoop arr n, arr).2[(i % (takeLoop arr n, arr).2.length)]? :=
    fun arr hne => ⟨(takeLoop_spec arr n hne).1, hne, (takeLoop_spec arr n hne).2⟩
  unfold getProfiles
  split_ifs with h1 h2 h3
  · exact hkey _ (generateFakeBatch_ne_nil mk n (by omega))
  · exact hkey _ (fun hcon => h2 (by rw [hcon]; rfl))
  · exact hkey _ (generateFakeBatch_ne_nil mk _ (by omega))
  · exact hkey _ (fun hcon => h3 (by rw [hcon]; simpa using hn))

/-- Witness for C4: five profiles from an empty pool in the synthetic
branch; element 3 equals pool element 3 mod poolSize. -/
theorem C4_witness :
    (getProfiles "fake" false [] (fun _ => sampleNoCoords) 5).1.length = 5 ∧
    (getProfiles "fake" false [] (fun _ => sampleNoCoords) 5).1[3]? =
      (getProfiles "fake" false [] (fun _ => sampleNoCoords) 5).2[(3 %
        (getProfiles "fake" false [] (fun _ => sampleNoCoords) 5).2.length)]? :=
  ⟨(C4_profiles_cycle "fake" false [] (fun _ => sampleNoCoords) 5 (by norm_num)).1,
   (C4_profiles_cycle "fake" false [] (fun _ => sampleNoCoords) 5 (by norm_num)).2.2 3 (by norm_num)⟩

-- ---------- C5 ----------

/-- C5: the supplier boundary never propagates a failure: `fetchProfiles`
is a total function in this model (the source wraps its whole network
section in try/catch), and whenever the network is consulted (cache miss)
and the call fails, or succeeds with an empty or non-array row set, the
returned list is exactly the embedded `SAMPLE_PROFILES`. -/
theorem C5_fallback (ρ : Type) (synth : ρ → Profile) (borough nta : String) (limit : ℤ)
    (c : Cache) (now : ℤ)
    (hmiss : getCache c (cacheKey borough nta limit) now = none) :
    (∀ e, (fetchProfiles ρ synth borough nta limit c now (.error e)).1 = SAMPLE_PROFILES) ∧
    (fetchProfiles ρ synth borough nta limit c now (.ok (some []))).1 = SAMPLE_PROFILES ∧
    (fetchProfiles ρ synth borough nta limit c now (.ok none)).1 = SAMPLE_PROFILES := by
  simp only [fetchProfiles]
  rw [hmiss]
  simp

/-- Witness for C5: a failing call with an empty cache returns the samples. -/
theorem C5_witness :
    (fetchProfiles Unit (fun _ => default) "" "" 400 [] 0 (.error "HTTP 500")).1
      = SAMPLE_PROFILES :=
  (C5_fallback Unit (fun _ => default) "" "" 400 [] 0 rfl).1 "HTTP 500"

-- ---------- C6 ----------

/-- C6: at the supplier boundary, a cache entry strictly older than the
one-hour time-to-live is never returned — `getCache` reports a miss and
the call goes to the network — while an entry within the time-to-live is
returned as-is without issuing a network request. -/
theorem C6_cache_ttl (ρ : Type) (synth : ρ → Profile) (borough nta : String) (limit : ℤ)
    (c : Cache) (now t : ℤ) (v : List Profile)
    (hfound : c.lookup (cacheKey borough nta limit) = some (t, v)) :
    (now - t > ONE_HOUR_MS →
       getCache c (cacheKey borough nta limit) now = none ∧
       ∀ net, (fetchProfiles ρ synth borough nta limit c now net).2.2 = true) ∧
    (now - t ≤ ONE_HOUR_MS →
       ∀ net, fetchProfiles ρ synth borough nta limit c now net = (v, c, false)) := by
  constructor
  · intro hexp
    have hmiss : getCache c (cacheKey borough nta limit) now = none := by
      unfold getCache
      rw [hfound]
      simp [hexp]
    refine ⟨hmiss, fun net => ?_⟩
    simp only [fetchProfiles]
    rw [hmiss]
    cases net <;> simp
  · intro hfresh net
    have hhit : getCache c (cacheKey borough nta limit) now = some v := by
      unfold getCache
      rw [hfound]
      exact if_neg (not_lt.mpr hfresh)
    simp only [fetchProfiles]
    rw [hhit]

/-- Witness for C6: a 10 ms old entry is served from the cache with no
network request. -/
theorem C6_witness :
    fetchProfiles Unit (fun _ => default) "" "" 400
        [(cacheKey "" "" 400, (0, SAMPLE_PROFILES))] 10 (.error "HTTP 500")
      = (SAMPLE_PROFILES, [(cacheKey "" "" 400, (0, SAMPLE_PROFILES))], false) :=
  (C6_cache_ttl Unit (fun _ => default) "" "" 400
      [(cacheKey "" "" 400, (0, SAMPLE_PROFILES))] 10 0 SAMPLE_PROFILES
      (by simp)).2 (by norm_num [ONE_HOUR_MS]) (.error "HTTP 500")

-- ---------- C9 ----------

theorem getCache_none_later (c : Cache) (key : String) (now now2 : ℤ)
    (h : getCache c key now = none) (hle : now ≤ now2) : getCache c key now2 = none := by
  unfold getCache at h ⊢
  cases hl : c.lookup key with
  | none => rfl
  | some tv =>
    rw [hl] at h
    dsimp only at h
    split_ifs at h with hc
    exact if_pos (by omega)

/-- C9: the two fallback paths differ in caching.  A successful network
call with an empty row list stores `SAMPLE_PROFILES` in the cache, so a
second call with the same filter within the time-to-live returns the
samples without touching the network; a thrown network failure returns
the samples while leaving the cache unchanged, so a second call with the
same filter attempts the network again. -/
theorem C9_cache_paths (ρ ρ2 : Type) (synth : ρ → Profile) (synth2 : ρ2 → Profile)
    (borough nta : String) (limit : ℤ) (c : Cache) (now : ℤ) (e : String)
    (hmiss : getCache c (cacheKey borough nta limit) now = none) :
    (fetchProfiles ρ synth borough nta limit c now (.ok (some []))
       = (SAMPLE_PROFILES, setCache c (cacheKey borough nta limit) SAMPLE_PROFILES now, true)) ∧
    (∀ now2 (net2 : Except String (Option (List ρ2))), now ≤ now2 → now2 - now ≤ ONE_HOUR_MS →
       fetchProfiles ρ2 synth2 borough nta limit
           (setCache c (cacheKey borough nta limit) SAMPLE_PROFILES now) now2 net2
         = (SAMPLE_PROFILES, setCache c (cacheKey borough nta limit) SAMPLE_PROFILES now, false)) ∧
    (fetchProfiles ρ synth borough nta limit c now (.error e) = (SAMPLE_PROFILES, c, true)) ∧
    (∀ now2 (net2 : Except String (Option (List ρ2))), now ≤ now2 →
       (fetchProfiles ρ2 synth2 borough nta limit c now2 net2).2.2 = true) := by
  refine ⟨?_, ?_, ?_, ?_⟩
  · simp only [fetchProfiles]
    rw [hmiss]
    simp
  · intro now2 net2 hle httl
    have hhit : getCache (setCache c (cacheKey borough nta limit) SAMPLE_PROFILES now)
        (cacheKey borough nta limit) now2 = some SAMPLE_PROFILES := by
      unfold getCache setCache
      simp only [List.lookup, beq_self_eq_true]
      exact if_neg (not_lt.mpr httl)
    simp only [fetchProfiles]
    rw [hhit]
  · simp only [fetchProfiles]
    rw [hmiss]
  · intro now2 net2 hle
    have hmiss2 : getCache c (cacheKey borough nta limit) now2 = none :=
      getCache_none_later c _ now now2 hmiss hle
    simp only [fetchProfiles]
    rw [hmiss2]
    cases net2 <;> simp

/-- Witness for C9: the empty-success path on an empty cache stores and
returns the samples. -/
theorem C9_witness :
    fetchProfiles Unit (fun _ => default) "Brooklyn" "" 400 [] 0 (.ok (some []))
      = (SAMPLE_PROFILES, setCache [] (cacheKey "Brooklyn" "" 400) SAMPLE_PROFILES 0, true) :=
  (C9_cache_paths Unit Unit (fun _ => default) (fun _ => default)
      "Brooklyn" "" 400 [] 0 "HTTP 500" rfl).1

-- ---------- C2 ----------

theorem buildString_length_pos (p : Profile) (mode : String) (r : ℕ → ℚ) :
    0 < (buildString p mode r).length := by
  have h1 : ("profile=" : String).length = 8 := rfl
  have h2 : ("let p=Agent( id:0x" : String).length = 18 := rfl
  have h3 : ("\x7b\"profile\":" : String).length = 11 := rfl
  unfold buildString
  split_ifs
  · unfold buildKv
    simp only [String.length_append]
    omega
  · unfold buildCode
    simp only [String.length_append]
    omega
  · unfold buildJson jsonPre
    simp only [String.length_append]
    omega

/-- C2 corrected: the key-highlight check does not special-case the
padding regions of the glyph stream.  `isKeyChar` maps every buffer
offset `b ≥ 0` to the core-string position `(b - 40) mod len` and tests
key membership there, so a padding offset is reported key exactly when
the core position it aliases is key (see `C2_counterexample` for a
padding offset where this is `true`). -/
theorem C2_key_alias (p : Profile) (mode : String) (r : ℕ → ℚ) (b : ℤ) (hb : 0 ≤ b) :
    ((mkStringPainter p mode r).isKeyChar b = true ↔
      (b - 40) % ((buildString p mode r).length : ℤ)
        ∈ computeKeyPositions (buildString p mode r)) := by
  have hL : 0 < (buildString p mode r).length := buildString_length_pos p mode r
  have hL2 : (0 : ℤ) < ((buildString p mode r).length : ℤ) := by exact_mod_cast hL
  unfold StringPainter.isKeyChar
  rw [mkStringPainter_keys, mkStringPainter_string]
  have hnn : (0 : ℤ) ≤ b - 40 + ((buildString p mode r).length : ℤ) * 10000 := by
    have h10 : (1 : ℤ) * 10000 ≤ ((buildString p mode r).length : ℤ) * 10000 :=
      mul_le_mul_of_nonneg_right hL2 (by norm_num)
    omega
  rw [Int.tmod_eq_emod hnn (le_of_lt hL2), Int.add_mul_emod_self_left]
  exact List.elem_iff

set_option maxRecDepth 4000 in
/-- Counterexample for C2: for a concrete profile in `kv` style, the
first right-padding offset of the scrolling buffer, `40 + len(core)`,
is reported key by `isKeyChar` (it aliases core position `0`, where the
`profile` label starts), even though the buffer there holds a padding
filler character: the first 40 and last 40 buffer positions are the
padding regions, and this offset lies in the last 40. -/
theorem C2_counterexample :
    ((mkStringPainter sampleNoCoords "kv" (fun _ => 0)).buildGlyphStream (fun _ => 0)).length
        = 40 + (mkStringPainter sampleNoCoords "kv" (fun _ => 0)).string.length + 40 ∧
    (mkStringPainter sampleNoCoords "kv" (fun _ => 0)).isKeyChar
        (40 + ((mkStringPainter sampleNoCoords "kv" (fun _ => 0)).string.length : ℤ)) = true := by
  constructor
  · decide
  · decide

/-- Witness for the amended C2 at buffer offset 0 (a left-padding offset,
aliasing core position `(0 - 40) mod len`). -/
theorem C2_witness :
    ((mkStringPainter sampleNoCoords "kv" (fun _ => 0)).isKeyChar 0 = true ↔
      ((0 : ℤ) - 40) % (((buildString sampleNoCoords "kv" (fun _ => 0)).length : ℤ))
        ∈ computeKeyPositions (buildString sampleNoCoords "kv" (fun _ => 0))) :=
  C2_key_alias sampleNoCoords "kv" (fun _ => 0) 0 (le_refl 0)

-- ---------- C1 ----------

theorem find?_congr_on {α : Type} (l : List α) (f g : α → Bool)
    (h : ∀ x ∈ l, f x = g x) : l.find? f = l.find? g := by
  induction l with
  | nil => rfl
  | cons a t ih =>
    have ha := h a (List.mem_cons_self a t)
    by_cases hfa : f a = true
    · rw [List.find?_cons_of_pos _ hfa, List.find?_cons_of_pos _ (by rw [← ha]; exact hfa)]
    · have hga : ¬ g a = true := by rw [← ha]; exact hfa
      rw [List.find?_cons_of_neg _ hfa, List.find?_cons_of_neg _ hga]
      exact ih (fun x hx => h x (List.mem_cons_of_mem _ hx))

/-- Searching for an all-letter pattern in `A ++ B` where `B` holds no
letters finds exactly what searching in `A` finds: no match can overlap
`B`. -/
theorem strIndexOf_append_sep (A B k : List Char) (hk : k ≠ [])
    (hkA : ∀ c ∈ k, isLowerAlpha c = true)
    (hB : ∀ c ∈ B, isLowerAlpha c = false) :
    strIndexOf (A ++ B) k = strIndexOf A k := by
  have hklen : 0 < k.length := List.length_pos.mpr hk
  have hfail : ∀ i : ℕ, A.length < i + k.length →
      ¬ (((A ++ B).drop i).take k.length = k) := by
    intro i hi hcon
    have hlen : (((A ++ B).drop i).take k.length).length = k.length := by rw [hcon]
    simp only [List.length_take, List.length_drop, List.length_append] at hlen
    have hfit : i + k.length ≤ A.length + B.length := by omega
    have hmk : A.length - i < k.length := by omega
    have him : A.length ≤ i + (A.length - i) := by omega
    have h1 : (((A ++ B).drop i).take k.length)[A.length - i]? = (A ++ B)[i + (A.length - i)]? := by
      rw [List.getElem?_take_of_lt hmk, List.getElem?_drop]
    have h2 : (A ++ B)[i + (A.length - i)]? = B[i + (A.length - i) - A.length]? :=
      List.getElem?_append_right him
    obtain ⟨km, hkm⟩ : ∃ x, k[A.length - i]? = some x :=
      ⟨_, List.getElem?_eq_getElem hmk⟩
    have hkmem : km ∈ k := List.getElem?_mem hkm
    have hBix : B[i + (A.length - i) - A.length]? = some km := by
      rw [← h2, ← h1, hcon]
      exact hkm
    have hBmem : km ∈ B := List.getElem?_mem hBix
    have htrue := hkA km hkmem
    rw [hB km hBmem] at htrue
    exact absurd htrue (by simp)
  have hagree : ∀ i : ℕ, i < A.length + 1 →
      (decide (((A ++ B).drop i).take k.length = k) : Bool)
        = decide ((A.drop i).take k.length = k) := by
    intro i hi
    by_cases hfit : i + k.length ≤ A.length
    · have hseg : ((A ++ B).drop i).take k.length = (A.drop i).take k.length := by
        rw [List.drop_append_of_le_length (by omega)]
        rw [List.take_append_of_le_length (by simp only [List.length_drop]; omega)]
      rw [hseg]
    · have h1 : ¬(((A ++ B).drop i).take k.length = k) := hfail i (by omega)
      have h2 : ¬((A.drop i).take k.length = k) := by
        intro hcon
        have hlen := congrArg List.length hcon
        simp only [List.length_take, List.length_drop] at hlen
        omega
      simp [h1, h2]
  unfold strIndexOf
  rw [List.length_append]
  have hsplit : A.length + B.length + 1 = (A.length + 1) + B.length := by omega
  rw [hsplit, List.range_add, List.find?_append]
  have hnone : ((List.range B.length).map (fun j => A.length + 1 + j)).find?
      (fun i => decide (((A ++ B).drop i).take k.length = k)) = none := by
    rw [List.find?_eq_none]
    intro x hx
    rw [List.mem_map] at hx
    obtain ⟨j, hj, rfl⟩ := hx
    simp only [decide_eq_true_eq]
    exact hfail _ (by omega)
  rw [hnone, Option.or_none]
  exact find?_congr_on _ _ _ (fun i hi => hagree i (List.mem_range.mp hi))

theorem digitChar_plain (k : ℕ) :
    escapeChar (digitChar k) = [digitChar k] ∧ isLowerAlpha (digitChar k) = false := by
  unfold digitChar
  split_ifs <;> exact ⟨by decide, by decide⟩

theorem natDecimalAux_chars (fuel : ℕ) :
    ∀ (n : ℕ), ∀ c ∈ natDecimalAux fuel n, ∃ j, c = digitChar j := by
  induction fuel with
  | zero => intro n c hc; simp [natDecimalAux] at hc
  | succ f ih =>
    intro n c hc
    unfold natDecimalAux at hc
    split_ifs at hc with h
    · simp only [List.mem_singleton] at hc
      exact ⟨n, hc⟩
    · rw [List.mem_append] at hc
      rcases hc with hc | hc
      · exact ih _ c hc
      · simp only [List.mem_singleton] at hc
        exact ⟨n % 10, hc⟩

theorem natDecimal_chars (n : ℕ) : ∀ c ∈ natDecimal n, ∃ j, c = digitChar j :=
  natDecimalAux_chars (n + 1) n

theorem intDecimal_plain (i : ℤ) :
    ∀ c ∈ intDecimal i, escapeChar c = [c] ∧ isLowerAlpha c = false := by
  intro c hc
  unfold intDecimal at hc
  rw [List.mem_append] at hc
  rcases hc with hc | hc
  · split_ifs at hc
    · simp only [List.mem_singleton] at hc
      subst hc
      exact ⟨by decide, by decide⟩
    · simp at hc
  · obtain ⟨j, rfl⟩ := natDecimal_chars _ c hc
    exact digitChar_plain j

theorem withPoint_plain (s : ℤ) (d : ℕ) :
    ∀ c ∈ (withPoint s d).data, escapeChar c = [c] ∧ isLowerAlpha c = false := by
  intro c hc
  unfold withPoint at hc
  by_cases h1 : d = 0
  · rw [if_pos h1] at hc
    exact intDecimal_plain s c hc
  · rw [if_neg h1] at hc
    simp only [String.data_append, List.mem_append] at hc
    rcases hc with ((hc | hc) | hc) | hc
    · split_ifs at hc
      · have : c = '-' := by simpa using hc
        subst this
        exact ⟨by decide, by decide⟩
      · simp at hc
    · obtain ⟨j, rfl⟩ := natDecimal_chars _ c hc
      exact digitChar_plain j
    · have : c = '.' := by simpa using hc
      subst this
      exact ⟨by decide, by decide⟩
    · rcases hc with hc | hc
      · have : c = '0' := (List.eq_of_mem_replicate hc)
        subst this
        exact ⟨by decide, by decide⟩
      · obtain ⟨j, rfl⟩ := natDecimal_chars _ c hc
        exact digitChar_plain j

theorem toFixedQ_plain (q : ℚ) (d : ℕ) :
    ∀ c ∈ (toFixedQ q d).data, escapeChar c = [c] ∧ isLowerAlpha c = false :=
  fun c hc => withPoint_plain _ _ c hc

theorem escList_of_plain (l : List Char) (h : ∀ c ∈ l, escapeChar c = [c]) :
    escList l = l := by
  induction l with
  | nil => rfl
  | cons a t ih =>
    unfold escList
    rw [h a (List.mem_cons_self a t), ih (fun c hc => h c (List.mem_cons_of_mem _ hc))]
    rfl

theorem jsonQuote_nonalpha (s : String)
    (hs : ∀ c ∈ s.data, escapeChar c = [c] ∧ isLowerAlpha c = false) :
    ∀ c ∈ (jsonQuote s).data, isLowerAlpha c = false := by
  intro c hc
  unfold jsonQuote at hc
  rw [show (String.mk ('"' :: (escList s.data ++ ['"']))).data
      = '"' :: (escList s.data ++ ['"']) from rfl] at hc
  rw [escList_of_plain s.data (fun c2 hc2 => (hs c2 hc2).1)] at hc
  rcases List.mem_cons.mp hc with hceq | hc
  · subst hceq
    decide
  rcases List.mem_append.mp hc with hc | hc
  · exact (hs c hc).2
  · have : c = '"' := by simpa using hc
    subst this
    decide

theorem mem_data_append {c : Char} {s t : String} :
    c ∈ (s ++ t).data ↔ c ∈ s.data ∨ c ∈ t.data := by
  rw [String.data_append, List.mem_append]

theorem joinComma_chars (l : List String)
    (h : ∀ s ∈ l, ∀ c ∈ s.data, isLowerAlpha c = false) :
    ∀ c ∈ (joinComma l).data, isLowerAlpha c = false := by
  induction l with
  | nil => intro c hc; simp [joinComma] at hc
  | cons a t ih =>
    cases t with
    | nil =>
      intro c hc
      exact h a (List.mem_cons_self a []) c hc
    | cons b t2 =>
      intro c hc
      rw [show joinComma (a :: b :: t2) = a ++ "," ++ joinComma (b :: t2) from rfl] at hc
      simp only [String.data_append, List.mem_append] at hc
      rcases hc with (hc | hc) | hc
      · exact h a (List.mem_cons_self a _) c hc
      · have : c = ',' := by simpa using hc
        subst this
        decide
      · exact ih (fun s hs => h s (List.mem_cons_of_mem _ hs)) c hc

theorem jsonTailNone_chars (p : Profile) (r : ℕ → ℚ) (hcoords : p.coords = none) :
    ∀ c ∈ (joinComma (jsonCoordsElems p r) ++ "]\x7d").data, isLowerAlpha c = false := by
  have hred : jsonCoordsElems p r =
      [jsonQuote (toFixedQ (rand 100 600 (r 0)) 2),
       jsonQuote (toFixedQ (rand 100 400 (r 1)) 2),
       jsonQuote (toFixedQ (rand 200 800 (r 2)) 1)] := by
    unfold jsonCoordsElems
    rw [hcoords]
  intro c hc
  rcases mem_data_append.mp hc with hc2 | hc2
  · rw [hred] at hc2
    refine joinComma_chars _ ?_ c hc2
    intro s hs c2 hcm
    have hs2 : s = jsonQuote (toFixedQ (rand 100 600 (r 0)) 2)
        ∨ s = jsonQuote (toFixedQ (rand 100 400 (r 1)) 2)
        ∨ s = jsonQuote (toFixedQ (rand 200 800 (r 2)) 1) := by simpa using hs
    rcases hs2 with rfl | rfl | rfl <;>
      exact jsonQuote_nonalpha _ (toFixedQ_plain _ _) c2 hcm
  · have : c = ']' ∨ c = '\x7d' := by simpa using hc2
    rcases this with rfl | rfl <;> decide

theorem keyLabels_alpha :
    ∀ k ∈ keyLabels, k.data ≠ [] ∧ ∀ c ∈ k.data, isLowerAlpha c = true := by
  intro k hk
  fin_cases hk <;> exact ⟨by decide, by decide⟩

/-- The key-position set of the `json` encoding does not depend on the
randomly sampled coordinates: with `coords` absent, every key label is
all-letters while the generated tail (quoted `toFixed` strings, commas
and closing brackets) holds no letters, so every `indexOf` result is
already determined by the deterministic prefix. -/
theorem computeKeyPositions_json_eq (p : Profile) (r : ℕ → ℚ) (hcoords : p.coords = none) :
    computeKeyPositions (buildJson p r) = computeKeyPositions (jsonPre p) := by
  have hmap : ∀ k ∈ keyLabels,
      keyRange (buildJson p r).data k = keyRange (jsonPre p).data k := by
    intro k hk
    unfold keyRange
    have hdata : (buildJson p r).data = (jsonPre p).data
        ++ (joinComma (jsonCoordsElems p r) ++ "]\x7d").data := by
      unfold buildJson
      rw [String.data_append]
    rw [hdata, strIndexOf_append_sep _ _ _ (keyLabels_alpha k hk).1 (keyLabels_alpha k hk).2
      (jsonTailNone_chars p r hcoords)]
  unfold computeKeyPositions
  rw [List.map_congr_left hmap]

/-- C1 corrected: re-encoding the same `(p, s)` pair always reproduces the
identical key-position set, and reproduces the identical display string
for the `kv` and `code` styles and for `json` whenever the profile's
optional `coords` field is present.  When `coords` is absent, the `json`
display string embeds three freshly drawn random coordinates, so two
encodings of the same pair can differ (see `C1_counterexample`). -/
theorem C1_encoding_determinism (p : Profile) (mode : String) (r1 r2 : ℕ → ℚ) :
    (mkStringPainter p mode r1).keyCharPositions = (mkStringPainter p mode r2).keyCharPositions ∧
    ((mode = "kv" ∨ mode = "code" ∨ p.coords ≠ none) →
      (mkStringPainter p mode r1).string = (mkStringPainter p mode r2).string) := by
  have hjson_some : ∀ cs, p.coords = some cs → buildJson p r1 = buildJson p r2 := by
    intro cs hc2
    unfold buildJson jsonCoordsElems
    rw [hc2]
  have hstr : (mode = "kv" ∨ mode = "code" ∨ p.coords ≠ none) →
      buildString p mode r1 = buildString p mode r2 := by
    intro h
    unfold buildString
    split_ifs
    · rfl
    · rfl
    · cases hc2 : p.coords with
      | none =>
        rcases h with h | h | h
        · simp_all
        · simp_all
        · exact absurd hc2 h
      | some cs => exact hjson_some cs hc2
  refine ⟨?_, fun h => ?_⟩
  · rw [mkStringPainter_keys, mkStringPainter_keys]
    unfold buildString
    split_ifs
    · rfl
    · rfl
    · cases hc2 : p.coords with
      | none =>
        rw [computeKeyPositions_json_eq p r1 hc2, computeKeyPositions_json_eq p r2 hc2]
      | some cs => rw [hjson_some cs hc2]
  · rw [mkStringPainter_string, mkStringPainter_string]
    exact hstr h

set_option maxRecDepth 8000 in
set_option maxHeartbeats 1000000 in
/-- Counterexample for C1: for a concrete profile whose optional `coords`
field is absent, two `json` encodings under different random draws yield
different display strings (the embedded coordinates differ), refuting
determinism of the encoding for the `(p, json)` pair. -/
theorem C1_counterexample :
    buildString sampleNoCoords "json" (fun _ => 0)
      ≠ buildString sampleNoCoords "json" (fun _ => (1 : ℚ) / 2) := by
  decide

/-- Witness for the amended C1: with `coords` present, the `json`
encoding is deterministic — identical string and key-position set. -/
theorem C1_witness :
    (mkStringPainter sampleWithCoords "json" (fun _ => 0)).keyCharPositions
        = (mkStringPainter sampleWithCoords "json" (fun _ => (1 : ℚ) / 2)).keyCharPositions ∧
    (mkStringPainter sampleWithCoords "json" (fun _ => 0)).string
        = (mkStringPainter sampleWithCoords "json" (fun _ => (1 : ℚ) / 2)).string :=
  ⟨(C1_encoding_determinism sampleWithCoords "json" (fun _ => 0) (fun _ => (1 : ℚ) / 2)).1,
   (C1_encoding_determinism sampleWithCoords "json" (fun _ => 0) (fun _ => (1 : ℚ) / 2)).2
     (Or.inr (Or.inr (by decide)))⟩

end MatrixApp
